import Mathlib

/-
Verification of the session-controller repository (cli-rewind-py, cli-interrupt-py,
web/backend) against its natural-language specification.  The definitions below are a
shallow embedding of the Python source; theorems settle the spec claims.
-/

namespace Samples

/-! History data model, from src/cli-rewind-py/main.py. -/

/-- A single entry in the conversation history (`HistoryEntry`, main.py:22-27). -/
structure HistoryEntry where
  user_uuid : String
  assistant_uuid : String
  content : String
  deriving DecidableEq, Repr

deriving instance DecidableEq for Except

/-- The body of `SessionState.get_rewind_targets` (main.py:39-44):
`self.history[1:] if len(self.history) > 1 else []`. -/
def get_rewind_targets (history : List HistoryEntry) : List HistoryEntry :=
  if 1 < history.length then history.drop 1 else []

/-- The history-truncation scan at the top of `run_session` (main.py:147-154):
iterate over the history; at the first entry whose `assistant_uuid` equals
`rewind_to` set `state.history = state.history[:i + 1]` and stop; if the loop
falls through, raise `ValueError`. -/
def truncate_history (history : List HistoryEntry) (rewind_to : String) :
    Except String (List HistoryEntry) :=
  match history with
  | [] => Except.error ("Rewind target not found in history: " ++ rewind_to)
  | e :: rest =>
    if e.assistant_uuid = rewind_to then Except.ok [e]
    else (truncate_history rest rewind_to).map (e :: ·)

/-- Python list indexing `l[i]` with an integer index: negative indices count
from the end; an out-of-range index (an `IndexError`) is `none`. -/
def pyGet {α : Type} (l : List α) (i : Int) : Option α :=
  if i < 0 then
    if (-i).toNat ≤ l.length then l[(l.length - (-i).toNat)]? else none
  else l[i.toNat]?

/-- Python `list.index`: the index of the first equal element; a `ValueError`
(no equal element) is `none`. -/
def pyIndex {α : Type} [DecidableEq α] (l : List α) (x : α) : Option Nat :=
  match l with
  | [] => none
  | a :: rest => if a = x then some 0 else (pyIndex rest x).map (· + 1)

/-- The `/rewind` branch of `run_session` after the menu returned `entry`
(main.py:175-187): `idx = state.history.index(entry)`,
`prev_entry = state.history[idx - 1]`; the files are restored to
`entry.user_uuid` and `prev_entry.assistant_uuid` is returned as the resume
target for the next `run_session` call.  The pair is
(file checkpoint id, resume assistant id). -/
def menu_resolve (history : List HistoryEntry) (entry : HistoryEntry) :
    Option (String × String) :=
  match pyIndex history entry with
  | none => none
  | some idx =>
    match pyGet history ((idx : Int) - 1) with
    | none => none
    | some prev => some (entry.user_uuid, prev.assistant_uuid)

/-- The complete rewind flow for a target assistant id `t`, as composed by
`main` (main.py:226-235): the menu lists `get_rewind_targets`; selecting the
entry whose assistant id is `t` runs `menu_resolve` (restore files, return the
resume id), and `main` passes the returned resume id into the next
`run_session`, whose first step is `truncate_history`.  Yields
(file checkpoint id, resume assistant id, truncated history); `none` when no
menu entry carries the id `t`. -/
def rewind_flow (history : List HistoryEntry) (t : String) :
    Option (String × String × Except String (List HistoryEntry)) :=
  match (get_rewind_targets history).find? (fun e => e.assistant_uuid == t) with
  | none => none
  | some entry =>
    match menu_resolve history entry with
    | none => none
    | some (file_ckpt, resume_id) =>
      some (file_ckpt, resume_id, truncate_history history resume_id)

/-- The rewind step of one `main` iteration (main.py:226-235) combined with the
absence of any exception handler in `main`: `run_session` raises `ValueError`
out of the truncation scan, `main` does not catch it, so the interactive loop
survives the step iff the truncation succeeded. -/
def loop_survives_rewind (history : List HistoryEntry) (rewind_to : Option String) : Bool :=
  match rewind_to with
  | none => true
  | some t => (truncate_history history t).isOk

/-! The turn-consumption loop of `run_session` (main.py:192-223). -/

/-- The `content` field of a raw user message: either a plain string (the
`isinstance(content, str)` case) or anything else (a block list, `None`, an
absent field). -/
inductive MsgContent
  | str (s : String)
  | blocks
  deriving DecidableEq, Repr

/-- A raw message from `client._query.receive_messages()` as inspected by the
loop: only the fields the loop reads are kept.  `uuid` is `raw.get("uuid")`
(`none` when absent); a user message carries its content shape; a result
message carries `raw.get("session_id")`. -/
inductive RawMsg
  | user (uuid : Option String) (content : MsgContent)
  | assistant (uuid : Option String)
  | result (session_id : Option String)
  | other
  deriving DecidableEq, Repr

/-- Python truthiness of an optional string: `None` and the empty string are
falsy. -/
def truthy : Option String → Bool
  | none => false
  | some s => s != ""

/-- Recognizer for the plain-string content shape. -/
def MsgContent.isStr : MsgContent → Bool
  | MsgContent.str _ => true
  | MsgContent.blocks => false

/-- Recognizer for user messages. -/
def RawMsg.isUser : RawMsg → Bool
  | RawMsg.user _ _ => true
  | _ => false

/-- The values the message loop holds when it ends, plus what it did:
the captured uuids, whether `state.add_message` ran (`recorded`), and whether a
result message ended the loop. -/
structure TurnOutcome where
  user_uuid : Option String
  assistant_uuid : Option String
  recorded : Bool
  saw_result : Bool
  deriving DecidableEq, Repr

/-- The message loop of `run_session` (main.py:198-223), with the Python locals
`current_user_uuid` and `current_assistant_uuid` as the two accumulators
(both start as `None`, main.py:192-193): a user message is captured only when
no user uuid is captured yet and its content is a plain string
(main.py:202-206); an assistant message overwrites the assistant uuid
unconditionally (main.py:208-209); the first result message ends the loop and
records iff both captured uuids are truthy (main.py:218-223).  A stream that
ends without a result records nothing. -/
def consume_turn : List RawMsg → Option String → Option String → TurnOutcome
  | [], u, a => ⟨u, a, false, false⟩
  | RawMsg.user uu c :: rest, u, a =>
    if u.isNone && c.isStr then consume_turn rest uu a else consume_turn rest u a
  | RawMsg.assistant au :: rest, u, _ => consume_turn rest u au
  | RawMsg.result _ :: _, u, a => ⟨u, a, truthy u && truthy a, true⟩
  | RawMsg.other :: rest, u, a => consume_turn rest u a

/-- Declarative description of the captured user uuid: the first present uuid
among plain-string-content user messages before the first result. -/
def captured_user_uuid : List RawMsg → Option String
  | [] => none
  | RawMsg.user uu c :: rest =>
    if c.isStr then
      match uu with
      | some x => some x
      | none => captured_user_uuid rest
    else captured_user_uuid rest
  | RawMsg.assistant _ :: rest => captured_user_uuid rest
  | RawMsg.result _ :: _ => none
  | RawMsg.other :: rest => captured_user_uuid rest

/-- Declarative description of the assistant uuid held at the end: the `uuid`
field of the last assistant message before the first result (`some` of it), or
`none` when no assistant message arrived. -/
def last_assistant_seen : List RawMsg → Option (Option String)
  | [] => none
  | RawMsg.user _ _ :: rest => last_assistant_seen rest
  | RawMsg.assistant au :: rest =>
    match last_assistant_seen rest with
    | some v => some v
    | none => some au
  | RawMsg.result _ :: _ => none
  | RawMsg.other :: rest => last_assistant_seen rest

/-- Whether the stream contains a result message. -/
def saw_result : List RawMsg → Bool
  | [] => false
  | RawMsg.result _ :: _ => true
  | _ :: rest => saw_result rest

/-- The captured user uuid when the loop starts with accumulator `u`. -/
def resolve_user (u : Option String) (events : List RawMsg) : Option String :=
  match u with
  | some x => some x
  | none => captured_user_uuid events

/-- The held assistant uuid when the loop starts with accumulator `a`. -/
def resolve_assistant (a : Option String) (events : List RawMsg) : Option String :=
  match last_assistant_seen events with
  | some v => v
  | none => a

/-- The history after one turn of `run_session`: `state.add_message(...)` runs
exactly when the result branch recorded (main.py:221-222). -/
def run_turn_history (history : List HistoryEntry) (events : List RawMsg)
    (prompt : String) : List HistoryEntry :=
  if (consume_turn events none none).recorded then
    history ++ [⟨(consume_turn events none none).user_uuid.getD "",
                 (consume_turn events none none).assistant_uuid.getD "", prompt⟩]
  else history

/-! The Esc-key watcher, identical in src/cli-interrupt-py/main.py:18-50 and
src/cli-rewind-py/main.py:47-79. -/

/-- One input observed by the blocking wait in `read_key_or_stop`: the stop
pipe becoming readable, or a key read from stdin.  The code checks the stop
descriptor first (main.py:33-36), so a simultaneous wake is a stop. -/
inductive WatchInput
  | stop
  | key (c : Char)
  deriving DecidableEq, Repr

/-- The Esc character `_watch_esc_key` compares against. -/
def escChar : Char := '\x1b'

/-- The loop of `_watch_esc_key` (cli-interrupt-py main.py:41-50): each
iteration gets the next key or a stop; a stop returns without interrupting; the
Esc key calls `client.interrupt()` once and returns; any other key is ignored
and the loop continues.  Returns the number of `client.interrupt()` calls and
the inputs left unconsumed when the watcher returned (an exhausted list models
a watcher still blocked waiting). -/
def watch_esc : List WatchInput → Nat × List WatchInput
  | [] => (0, [])
  | WatchInput.stop :: rest => (0, rest)
  | WatchInput.key c :: rest => if c = escChar then (1, rest) else watch_esc rest

/-- The first input that makes the watcher return: a stop or the Esc key. -/
def first_signal (inputs : List WatchInput) : Option WatchInput :=
  inputs.find? (fun i =>
    match i with
    | WatchInput.stop => true
    | WatchInput.key c => c == escChar)

/-! The `esc_interruptable` scope (cli-interrupt-py main.py:53-68) and the
terminal-mode discipline of `read_key_or_stop` (main.py:22-39). -/

/-- A try/finally block over an explicit state: run the body, then always run
the finalizer on the resulting state. -/
def withFinally {σ α : Type} (bodyFn : σ → α × σ) (finFn : σ → σ) (s : σ) : α × σ :=
  let r := bodyFn s
  (r.1, finFn r.2)

/-- The terminal mode set by `tty.setcbreak`; any other `Nat` stands for some
other `termios` configuration. -/
def cbreakMode : Nat := 1

/-- The `select` wait inside `read_key_or_stop` (main.py:30-36): the first
ready source wins, the stop pipe is checked before stdin; an exhausted input
list models a wait that never wakes. -/
def select_step (ins : List WatchInput) : Option Char × List WatchInput :=
  match ins with
  | [] => (none, [])
  | WatchInput.stop :: rest => (none, rest)
  | WatchInput.key c :: rest => (some c, rest)

/-- `read_key_or_stop` (main.py:22-39): save the current terminal settings,
set cbreak mode, wait for a key or the stop signal, and in the `finally`
restore the saved settings.  The second component is the terminal mode after
the call. -/
def read_key_or_stop (m : Nat) (ins : List WatchInput) :
    (Option Char × List WatchInput) × Nat :=
  withFinally (fun _ => (select_step ins, cbreakMode)) (fun _ => m) m

/-- The result of running the watcher function to its return (or not):
how many times it called `client.interrupt()`, whether it returned at all, and
the terminal mode it left behind. -/
structure WatchRun where
  interrupts : Nat
  finished : Bool
  termMode : Nat
  deriving DecidableEq, Repr

/-- The `_watch_esc_key` loop with the terminal mode threaded through the
repeated `read_key_or_stop` calls: each completed call restores the mode it
found.  An exhausted input list leaves the watcher blocked inside the wait,
with the terminal still in cbreak mode. -/
def watch_loop (m : Nat) : List WatchInput → WatchRun
  | [] => ⟨0, false, cbreakMode⟩
  | i :: rest =>
    match (read_key_or_stop m (i :: rest)).1.1 with
    | none => ⟨0, true, (read_key_or_stop m (i :: rest)).2⟩
    | some c =>
      if c = escChar then ⟨1, true, (read_key_or_stop m (i :: rest)).2⟩
      else watch_loop m rest

/-- Steps taken while running the `esc_interruptable` scope, in order. -/
inductive ScopeAction
  | openPipe
  | startWatcher
  | runBody
  | writeStopByte
  | cancelTask
  | awaitWatcherDone
  | closePipe
  deriving DecidableEq, Repr

/-- How the body of the `async with esc_interruptable(client)` block ends:
normal completion, an asyncio cancellation, or a raised exception. -/
inductive BodyOutcome
  | ok
  | cancelled
  | fault
  deriving DecidableEq, Repr

/-- The state when the scope returns. -/
structure ScopeResult where
  trace : List ScopeAction
  termMode : Nat
  interrupts : Nat
  pipeOpen : Bool
  watcherDone : Bool
  outcome : BodyOutcome
  deriving DecidableEq, Repr

/-- The `esc_interruptable` context manager (main.py:53-68): `__aenter__`
opens the stop pipe and starts the watcher task; the body runs; whatever its
outcome, the `finally` block writes the stop byte, cancels and awaits the
watcher task, and closes both pipe descriptors, then the outcome is re-raised.
The watcher consumes the keys typed during the body followed by the stop byte
written in teardown; `await task` returns once the watcher function has
returned, so `watcherDone` is the watcher run's `finished` flag and the final
terminal mode is whatever the watcher run left. -/
def esc_interruptable_scope (m0 : Nat) (keys : List Char) (body : BodyOutcome) :
    ScopeResult :=
  let w := watch_loop m0 (keys.map WatchInput.key ++ [WatchInput.stop])
  { trace := [ScopeAction.openPipe, ScopeAction.startWatcher, ScopeAction.runBody,
              ScopeAction.writeStopByte, ScopeAction.cancelTask,
              ScopeAction.awaitWatcherDone, ScopeAction.closePipe]
    termMode := w.termMode
    interrupts := w.interrupts
    pipeOpen := false
    watcherDone := w.finished
    outcome := body }

/-! The web backend relay and session registry, from src/web/backend/api.py. -/

/-- Connection handles: `ClaudeSDKClient` instances, numbered. -/
abbrev Client := Nat

/-- A message from `client.receive_response()` as inspected by
`generate_response`: a `SystemMessage` carries `data["session_id"]`; all other
shapes are only serialized and yielded. -/
inductive Message
  | system (session_id : String)
  | assistant
  | result
  | other
  deriving DecidableEq, Repr

/-- How the generator raises: an `UnboundLocalError` when the registry write
on api.py:93 runs before any `SystemMessage` bound the local `session_id`, or
an `AssertionError` from the identity check on api.py:90-92. -/
inductive RelayError
  | unboundSessionId
  | assertMismatch (expected got : String)
  deriving DecidableEq, Repr

/-- The observable state of one `generate_response` run: the `_client_sessions`
registry, the writes it performed (in order), the messages yielded so far (in
order), the Python local `session_id` (`none` while unbound), and the raised
error if the generator died. -/
structure RelayState where
  registry : String → Option Client
  writes : List (String × Client)
  yielded : List Message
  sessionVar : Option String
  err : Option RelayError

/-- The unconditional registry write and yield at the bottom of the loop body
(api.py:93-105): with `session_id` unbound it raises `UnboundLocalError`;
otherwise it writes `_client_sessions[session_id] = client` and yields the
serialized message. -/
def relay_publish (client : Client) (m : Message) (sv : Option String)
    (st : RelayState) : RelayState :=
  match sv with
  | none => { st with err := some RelayError.unboundSessionId, sessionVar := sv }
  | some s =>
    { st with sessionVar := sv,
              registry := fun k => if k = s then some client else st.registry k,
              writes := st.writes ++ [(s, client)],
              yielded := st.yielded ++ [m] }

/-- The message loop of `generate_response` (api.py:84-105): a `SystemMessage`
binds the local `session_id` and, when `last_session_id` is truthy, asserts it
equals `last_session_id` (raising before the registry write on mismatch);
every message — of any kind — then runs the registry write and is yielded.
Once the generator has raised, nothing further happens. -/
def relay_loop (client : Client) (last_session_id : Option String) :
    List Message → RelayState → RelayState
  | [], st => st
  | m :: rest, st =>
    if st.err.isSome then st
    else
      match m with
      | Message.system sid =>
        if truthy last_session_id && sid != last_session_id.getD "" then
          { st with sessionVar := some sid,
                    err := some (RelayError.assertMismatch (last_session_id.getD "") sid) }
        else
          relay_loop client last_session_id rest
            (relay_publish client (Message.system sid) (some sid) st)
      | _ => relay_loop client last_session_id rest (relay_publish client m st.sessionVar st)

/-- The relay state before any message is processed. -/
def init_relay_state (registry : String → Option Client) : RelayState :=
  ⟨registry, [], [], none, none⟩

/-- The connection acquisition at the top of `generate_response`
(api.py:57-77): `_client_sessions.get(last_session_id) if last_session_id
else None`; when that is `None`, a fresh `ClaudeSDKClient` is created and
connected (`fresh` is the handle the next constructor call yields).  Returns
the client used and whether a new connection was created. -/
def acquire_client (registry : String → Option Client) (last_session_id : Option String)
    (fresh : Client) : Client × Bool :=
  match (if truthy last_session_id then registry (last_session_id.getD "") else none) with
  | some c => (c, false)
  | none => (fresh, true)

/-- One whole `generate_response` run (api.py:52-105) over a scripted response
stream: acquire the client, then drain the stream through the relay loop.
Returns the final relay state, the client used, and whether a connection was
created. -/
def generate_response (registry : String → Option Client) (last_session_id : Option String)
    (fresh : Client) (stream : List Message) : RelayState × Client × Bool :=
  let a := acquire_client registry last_session_id fresh
  (relay_loop a.1 last_session_id stream (init_relay_state registry), a.1, a.2)

/-- Two concurrent requests for the same session id `l`, interleaved so that
both run the `_client_sessions.get` lookup (api.py:57) before either stream
has published the id via the write on api.py:93 — a legal schedule, since
`await client.connect()` and `await client.query()` suspend each request
before its loop starts.  Each request then constructs its own
`ClaudeSDKClient` (`fresh1`, `fresh2` are the distinct handles); afterwards
the streams run and publish.  Returns both acquisition results and the relay
state after both streams. -/
def race_two_requests (registry : String → Option Client) (l : String)
    (fresh1 fresh2 : Client) (stream1 stream2 : List Message) :
    (Client × Bool) × (Client × Bool) × RelayState :=
  let a1 := acquire_client registry (some l) fresh1
  let a2 := acquire_client registry (some l) fresh2
  let st1 := relay_loop a1.1 (some l) stream1 (init_relay_state registry)
  let st2 := relay_loop a2.1 (some l) stream2 (init_relay_state st1.registry)
  (a1, a2, st2)

end Samples

namespace Samples

/-! Theorems about the history / rewind component. -/

/-- C4: `get_rewind_targets` on a length-L history has L-1 entries (so the
empty list when L = 0), and equals `history.drop 1`, so the turn at index 0 is
never among the returned targets. -/
theorem c4_rewind_targets (history : List HistoryEntry) :
    (get_rewind_targets history).length = history.length - 1 ∧
    (history = [] → get_rewind_targets history = []) ∧
    get_rewind_targets history = history.drop 1 := by
  refine ⟨?_, ?_, ?_⟩
  · unfold get_rewind_targets
    split
    · simp
    · simp only [List.length_nil]
      omega
  · intro h
    subst h
    rfl
  · unfold get_rewind_targets
    split
    · rfl
    · exact (List.drop_eq_nil_of_le (by omega)).symm

/-- Witness for C4 at concrete histories. -/
theorem c4_rewind_targets_witness :
    get_rewind_targets [] = [] ∧
    (get_rewind_targets [⟨"u0", "a0", "hi"⟩, ⟨"u1", "a1", "next"⟩]).length = 1 :=
  ⟨(c4_rewind_targets []).2.1 rfl, (c4_rewind_targets [⟨"u0", "a0", "hi"⟩, ⟨"u1", "a1", "next"⟩]).1⟩

/-- The rewind-target menu always equals the history without its first turn. -/
theorem get_rewind_targets_eq_drop (history : List HistoryEntry) :
    get_rewind_targets history = history.drop 1 := by
  unfold get_rewind_targets
  split
  · rfl
  · exact (List.drop_eq_nil_of_le (by omega)).symm

/-- Scanning for an assistant uuid that first occurs after the prefix `l1`
finds exactly that entry. -/
theorem find_uuid_append (l1 l2 : List HistoryEntry) (e : HistoryEntry)
    (h : ∀ x ∈ l1, x.assistant_uuid ≠ e.assistant_uuid) :
    (l1 ++ e :: l2).find? (fun x => x.assistant_uuid == e.assistant_uuid) = some e := by
  induction l1 with
  | nil =>
    rw [List.nil_append, List.find?_cons_of_pos _ (by simp)]
  | cons a l1 ih =>
    rw [List.cons_append,
      List.find?_cons_of_neg _ (by simpa using h a (List.mem_cons_self a l1))]
    exact ih (fun x hx => h x (List.mem_cons_of_mem a hx))

/-- Python `list.index` on an element that first occurs after the prefix `l1`
returns the length of `l1`. -/
theorem pyIndex_append {α : Type} [DecidableEq α] (l1 l2 : List α) (x : α)
    (h : ∀ y ∈ l1, y ≠ x) :
    pyIndex (l1 ++ x :: l2) x = some l1.length := by
  induction l1 with
  | nil => simp [pyIndex]
  | cons a l1 ih =>
    have ha : a ≠ x := h a (List.mem_cons_self a l1)
    rw [List.cons_append]
    simp only [pyIndex, if_neg ha, ih (fun y hy => h y (List.mem_cons_of_mem a hy)),
      Option.map_some', List.length_cons]

/-- Truncation at an assistant uuid that first occurs after the prefix `l1`
keeps the prefix and the matched entry and drops the rest. -/
theorem truncate_append (l1 l2 : List HistoryEntry) (e : HistoryEntry)
    (h : ∀ x ∈ l1, x.assistant_uuid ≠ e.assistant_uuid) :
    truncate_history (l1 ++ e :: l2) e.assistant_uuid = Except.ok (l1 ++ [e]) := by
  induction l1 with
  | nil => simp [truncate_history]
  | cons a l1 ih =>
    rw [List.cons_append]
    simp only [truncate_history, if_neg (h a (List.mem_cons_self a l1)),
      ih (fun x hx => h x (List.mem_cons_of_mem a hx)), Except.map, List.cons_append]

/-- Python indexing at the length of the left part of an append hits the first
element of the right part. -/
theorem pyGet_append {α : Type} (l1 l2 : List α) (e : α) :
    pyGet (l1 ++ e :: l2) (l1.length : Int) = some e := by
  unfold pyGet
  rw [if_neg (by omega)]
  have h1 : ((l1.length : Int)).toNat = l1.length := by simp
  rw [h1, List.getElem?_append_right (le_refl _), Nat.sub_self]
  simp

/-- The rewind flow, evaluated on a history decomposed around the target `e`
and its predecessor `eprev`. -/
theorem rewind_flow_append (l1 l2 : List HistoryEntry) (eprev e : HistoryEntry)
    (hnodup : ((l1 ++ eprev :: e :: l2).map (fun x => x.assistant_uuid)).Nodup) :
    rewind_flow (l1 ++ eprev :: e :: l2) e.assistant_uuid =
      some (e.user_uuid, eprev.assistant_uuid, Except.ok (l1 ++ [eprev])) := by
  have hsplit := hnodup
  rw [List.map_append, List.map_cons, List.map_cons, List.nodup_append] at hsplit
  obtain ⟨-, hB, hdisj⟩ := hsplit
  rw [List.nodup_cons] at hB
  obtain ⟨heprevB, -⟩ := hB
  have heprev_ne : eprev.assistant_uuid ≠ e.assistant_uuid := fun hc =>
    heprevB (by rw [hc]; exact List.mem_cons_self _ _)
  have h1 : ∀ x ∈ l1, x.assistant_uuid ≠ eprev.assistant_uuid := fun x hx hc =>
    hdisj (List.mem_map_of_mem _ hx) (by rw [hc]; exact List.mem_cons_self _ _)
  have h2 : ∀ x ∈ l1, x.assistant_uuid ≠ e.assistant_uuid := fun x hx hc =>
    hdisj (List.mem_map_of_mem _ hx)
      (by rw [hc]; exact List.mem_cons_of_mem _ (List.mem_cons_self _ _))
  have h2' : ∀ x ∈ l1 ++ [eprev], x.assistant_uuid ≠ e.assistant_uuid := by
    intro x hx
    rcases List.mem_append.mp hx with hmem | hmem
    · exact h2 x hmem
    · rw [List.mem_singleton] at hmem
      subst hmem
      exact heprev_ne
  have h3 : ∀ x ∈ l1 ++ [eprev], x ≠ e := fun x hx hc => h2' x hx (by rw [hc])
  have hassoc : l1 ++ eprev :: e :: l2 = (l1 ++ [eprev]) ++ e :: l2 := by simp
  have htargets : get_rewind_targets (l1 ++ eprev :: e :: l2) =
      (l1 ++ [eprev]).drop 1 ++ e :: l2 := by
    rw [get_rewind_targets_eq_drop, hassoc, List.drop_append_of_le_length (by simp)]
  have hfind : ((l1 ++ [eprev]).drop 1 ++ e :: l2).find?
      (fun x => x.assistant_uuid == e.assistant_uuid) = some e :=
    find_uuid_append _ _ _ (fun x hx => h2' x (List.mem_of_mem_drop hx))
  have hidx : pyIndex (l1 ++ eprev :: e :: l2) e = some (l1.length + 1) := by
    rw [hassoc, pyIndex_append _ _ _ h3]
    simp
  have hcast : ((l1.length + 1 : Nat) : Int) - 1 = (l1.length : Int) := by push_cast; ring
  have hpg : pyGet (l1 ++ eprev :: e :: l2) (((l1.length + 1 : Nat) : Int) - 1) = some eprev := by
    rw [hcast]
    exact pyGet_append l1 (e :: l2) eprev
  have hmenu : menu_resolve (l1 ++ eprev :: e :: l2) e =
      some (e.user_uuid, eprev.assistant_uuid) := by
    simp only [menu_resolve, hidx, hpg]
  have htr : truncate_history (l1 ++ eprev :: e :: l2) eprev.assistant_uuid =
      Except.ok (l1 ++ [eprev]) := truncate_append l1 (e :: l2) eprev h1
  simp only [rewind_flow, htargets, hfind, hmenu, htr]

/-- C1 (amended): for a history with pairwise-distinct assistant ids and a
target turn T at index i > 0, the composed rewind flow restores the files to
T.user_uuid, resumes the agent context from the assistant uuid of the turn at
index i-1, and truncates the history to its first i turns (indices 0..i-1):
the target turn itself is dropped and replayed fresh, so the history does not
keep i+1 turns. -/
theorem c1_rewind_resolution (history : List HistoryEntry) (i : Nat)
    (hnodup : (history.map (fun x => x.assistant_uuid)).Nodup)
    (h0 : 0 < i) (hi : i < history.length) :
    rewind_flow history (history[i].assistant_uuid) =
      some (history[i].user_uuid, history[i-1].assistant_uuid,
        Except.ok (history.take i)) := by
  have hi1 : i - 1 < history.length := by omega
  have hdec : history = history.take (i-1) ++ history[i-1] :: history[i] :: history.drop (i+1) := by
    conv_lhs => rw [← List.take_append_drop (i-1) history]
    congr 1
    rw [List.drop_eq_getElem_cons hi1]
    congr 1
    have hsucc : i - 1 + 1 = i := by omega
    rw [hsucc, List.drop_eq_getElem_cons hi]
  have htake : history.take i = history.take (i-1) ++ [history[i-1]] := by
    have hsucc : i - 1 + 1 = i := by omega
    conv_lhs => rw [← hsucc]
    rw [List.take_succ, List.getElem?_eq_getElem hi1]
    rfl
  rw [htake]
  set eprev := history[i-1] with heprev
  set e := history[i] with he
  conv_lhs => rw [hdec]
  rw [hdec] at hnodup
  exact rewind_flow_append _ _ _ _ hnodup

/-- Witness for C1 on a concrete three-turn history, rewinding to the turn at
index 2: files restore to its user checkpoint, the resume id is the assistant
id of index 1, and the history keeps its first two turns. -/
theorem c1_rewind_resolution_witness :
    rewind_flow [⟨"u0", "a0", "hi"⟩, ⟨"u1", "a1", "b"⟩, ⟨"u2", "a2", "c"⟩] "a2" =
      some ("u2", "a1", Except.ok [⟨"u0", "a0", "hi"⟩, ⟨"u1", "a1", "b"⟩]) := by
  have h := c1_rewind_resolution
    [⟨"u0", "a0", "hi"⟩, ⟨"u1", "a1", "b"⟩, ⟨"u2", "a2", "c"⟩] 2
    (by decide) (by decide) (by decide)
  simpa using h

/-- C1 counterexample to the claim as stated: for the two-turn history
H = [(u0,a0,hi), (u1,a1,next)] and target T at index i = 1 (assistant id a1),
the flow truncates the history to one turn [(u0,a0,hi)], not to the claimed
i+1 = 2 turns H[0..1]. -/
theorem c1_counterexample :
    rewind_flow [⟨"u0", "a0", "hi"⟩, ⟨"u1", "a1", "next"⟩] "a1" =
      some ("u1", "a0", Except.ok [⟨"u0", "a0", "hi"⟩]) ∧
    Option.map (fun r => r.2.2) (rewind_flow [⟨"u0", "a0", "hi"⟩, ⟨"u1", "a1", "next"⟩] "a1") ≠
      some (Except.ok [⟨"u0", "a0", "hi"⟩, ⟨"u1", "a1", "next"⟩]) := by
  constructor
  · decide
  · decide

/-- C5 (amended): resolving a rewind to an assistant id absent from the
history raises the rewind-target-not-found ValueError with the history left
unmodified (the scan assigns nothing before raising), and since `main` calls
`run_session` with no exception handler the error propagates and the
interactive loop does not survive the step. -/
theorem c5_absent_target (history : List HistoryEntry) (t : String)
    (habs : ∀ e ∈ history, e.assistant_uuid ≠ t) :
    truncate_history history t = Except.error ("Rewind target not found in history: " ++ t) ∧
    loop_survives_rewind history (some t) = false := by
  have herr : ∀ (h : List HistoryEntry), (∀ e ∈ h, e.assistant_uuid ≠ t) →
      truncate_history h t = Except.error ("Rewind target not found in history: " ++ t) := by
    intro h
    induction h with
    | nil => intro _; rfl
    | cons a rest ih =>
      intro hh
      simp only [truncate_history, if_neg (hh a (List.mem_cons_self a rest)),
        ih (fun e he => hh e (List.mem_cons_of_mem a he)), Except.map]
  refine ⟨herr history habs, ?_⟩
  show (truncate_history history t).isOk = false
  rw [herr history habs]
  rfl

/-- Witness for C5: a concrete one-turn history and the absent id zzz. -/
theorem c5_absent_target_witness :
    truncate_history [⟨"u0", "a0", "hi"⟩] "zzz" =
      Except.error ("Rewind target not found in history: " ++ "zzz") :=
  (c5_absent_target [⟨"u0", "a0", "hi"⟩] "zzz" (by decide)).1

/-- C5 counterexample to the claim as stated: with the one-turn history
[(u0,a0,hi)] and absent target id zzz, the raised ValueError is not caught by
`main`, so the interactive loop does not continue — contradicting the part of
the claim that says the session is left able to continue. -/
theorem c5_counterexample :
    loop_survives_rewind [⟨"u0", "a0", "hi"⟩] (some "zzz") = false := by decide

/-- The message loop computes exactly the declaratively described uuids:
the first present uuid of a plain-string user message, the uuid of the last
assistant message, both cut at the first result; recording happens iff a
result arrived and both values are truthy. -/
theorem consume_turn_spec (events : List RawMsg) : ∀ (u a : Option String),
    consume_turn events u a =
      ⟨resolve_user u events, resolve_assistant a events,
       saw_result events &&
         (truthy (resolve_user u events) && truthy (resolve_assistant a events)),
       saw_result events⟩ := by
  induction events with
  | nil =>
    intro u a
    cases u <;>
      simp [consume_turn, resolve_user, resolve_assistant, captured_user_uuid,
        last_assistant_seen, saw_result]
  | cons m rest ih =>
    intro u a
    cases m with
    | user uu c =>
      cases c with
      | str s =>
        cases u with
        | none =>
          rw [show consume_turn (RawMsg.user uu (MsgContent.str s) :: rest) none a =
              consume_turn rest uu a from rfl, ih uu a]
          cases uu <;>
            simp [resolve_user, resolve_assistant, captured_user_uuid,
              last_assistant_seen, saw_result, MsgContent.isStr]
        | some x =>
          rw [show consume_turn (RawMsg.user uu (MsgContent.str s) :: rest) (some x) a =
              consume_turn rest (some x) a from rfl, ih (some x) a]
          simp [resolve_user, resolve_assistant, captured_user_uuid,
            last_assistant_seen, saw_result]
      | blocks =>
        have hstep : consume_turn (RawMsg.user uu MsgContent.blocks :: rest) u a =
            consume_turn rest u a := by
          cases u <;> simp [consume_turn, MsgContent.isStr]
        rw [hstep, ih u a]
        simp [resolve_user, resolve_assistant, captured_user_uuid,
          last_assistant_seen, saw_result, MsgContent.isStr]
    | assistant au =>
      rw [show consume_turn (RawMsg.assistant au :: rest) u a =
          consume_turn rest u au from rfl, ih u au]
      cases hl : last_assistant_seen rest <;>
        simp [resolve_user, resolve_assistant, captured_user_uuid,
          last_assistant_seen, saw_result, hl]
    | result sid =>
      cases u <;>
        simp [consume_turn, resolve_user, resolve_assistant, captured_user_uuid,
          last_assistant_seen, saw_result]
    | other =>
      rw [show consume_turn (RawMsg.other :: rest) u a = consume_turn rest u a from rfl, ih u a]
      simp [resolve_user, resolve_assistant, captured_user_uuid,
        last_assistant_seen, saw_result]

/-- C3 (amended): at the result message the turn is recorded iff a result
arrived and both the captured user uuid (the first present uuid among
plain-string-content user messages of the turn) and the uuid of the last
assistant message of the turn are truthy; the history grows iff that condition
holds; and a turn in which no plain-string user uuid was captured is never
recorded.  (The claim as stated — keyed to the leading user message — fails;
see the counterexample.) -/
theorem c3_turn_recording (history : List HistoryEntry) (events : List RawMsg)
    (prompt : String) :
    ((consume_turn events none none).recorded =
      (saw_result events &&
        (truthy (captured_user_uuid events) && truthy (resolve_assistant none events)))) ∧
    (run_turn_history history events prompt ≠ history ↔
      (saw_result events &&
        (truthy (captured_user_uuid events) && truthy (resolve_assistant none events))) = true) ∧
    (captured_user_uuid events = none → run_turn_history history events prompt = history) := by
  have hspec := consume_turn_spec events none none
  have hru : resolve_user none events = captured_user_uuid events := rfl
  have hrec : (consume_turn events none none).recorded =
      (saw_result events &&
        (truthy (captured_user_uuid events) && truthy (resolve_assistant none events))) := by
    rw [hspec, hru]
  refine ⟨hrec, ?_, ?_⟩
  · unfold run_turn_history
    rw [hrec]
    by_cases hcond : (saw_result events &&
        (truthy (captured_user_uuid events) && truthy (resolve_assistant none events))) = true
    · rw [if_pos hcond]
      simp only [hcond, iff_true]
      intro hcontra
      have hlen := congrArg List.length hcontra
      simp at hlen
    · rw [if_neg hcond]
      simp [hcond]
  · intro hnone
    unfold run_turn_history
    rw [hrec, hnone]
    simp [truthy]

/-- Witness for C3: a stream with no result records nothing, and a complete
turn with a captured plain-string user message and an assistant message is
recorded. -/
theorem c3_turn_recording_witness :
    run_turn_history [] [RawMsg.user none MsgContent.blocks] "p" = [] ∧
    (run_turn_history []
        [RawMsg.user (some "u1") (MsgContent.str "hi"), RawMsg.assistant (some "a1"),
         RawMsg.result (some "s")] "hi" ≠ []) :=
  ⟨(c3_turn_recording [] [RawMsg.user none MsgContent.blocks] "p").2.2 rfl,
   (c3_turn_recording []
      [RawMsg.user (some "u1") (MsgContent.str "hi"), RawMsg.assistant (some "a1"),
       RawMsg.result (some "s")] "hi").2.1.mpr (by decide)⟩

/-- C3 counterexample to the claim as stated: in this turn the leading user
message has no plain-text content (a tool-result-style block list), yet the
loop captures the uuid of the later string-content user message and the turn
is recorded at the result. -/
theorem c3_counterexample :
    (List.find? RawMsg.isUser
        [RawMsg.user (some "u1") MsgContent.blocks,
         RawMsg.user (some "u2") (MsgContent.str "hi"),
         RawMsg.assistant (some "a1"), RawMsg.result (some "s")] =
      some (RawMsg.user (some "u1") MsgContent.blocks)) ∧
    (consume_turn
        [RawMsg.user (some "u1") MsgContent.blocks,
         RawMsg.user (some "u2") (MsgContent.str "hi"),
         RawMsg.assistant (some "a1"), RawMsg.result (some "s")] none none).recorded = true := by
  decide

/-- C6: the watcher interrupts at most once; when a stop arrives before any
Esc key it returns without interrupting; when the Esc key arrives before any
stop it interrupts exactly once and returns; any non-Esc key is ignored and
watching continues. -/
theorem c6_watcher (inputs : List WatchInput) :
    (watch_esc inputs).1 ≤ 1 ∧
    (first_signal inputs = some WatchInput.stop → (watch_esc inputs).1 = 0) ∧
    (∀ c, first_signal inputs = some (WatchInput.key c) → (watch_esc inputs).1 = 1) ∧
    (∀ c, c ≠ escChar → watch_esc (WatchInput.key c :: inputs) = watch_esc inputs) := by
  refine ⟨?_, ?_, ?_, ?_⟩
  · induction inputs with
    | nil => simp [watch_esc]
    | cons i rest ih =>
      cases i with
      | stop => simp [watch_esc]
      | key c =>
        by_cases hc : c = escChar
        · simp [watch_esc, hc]
        · simpa [watch_esc, hc] using ih
  · induction inputs with
    | nil => intro h; simp [first_signal] at h
    | cons i rest ih =>
      cases i with
      | stop => intro _; simp [watch_esc]
      | key c =>
        intro h
        by_cases hc : c = escChar
        · rw [first_signal, List.find?_cons_of_pos _ (by simp [hc])] at h
          simp at h
        · rw [first_signal, List.find?_cons_of_neg _ (by simp [hc])] at h
          rw [watch_esc, if_neg hc]
          exact ih h
  · induction inputs with
    | nil => intro c h; simp [first_signal] at h
    | cons i rest ih =>
      cases i with
      | stop =>
        intro c h
        rw [first_signal, List.find?_cons_of_pos _ (by simp)] at h
        simp at h
      | key c0 =>
        intro c h
        by_cases hc : c0 = escChar
        · rw [watch_esc, if_pos hc]
        · rw [first_signal, List.find?_cons_of_neg _ (by simp [hc])] at h
          rw [watch_esc, if_neg hc]
          exact ih c h
  · intro c hc
    rw [watch_esc, if_neg hc]

/-- Witness for C6: stop before Esc gives zero interrupts; Esc before stop
gives exactly one. -/
theorem c6_watcher_witness :
    (watch_esc [WatchInput.key 'a', WatchInput.stop, WatchInput.key escChar]).1 = 0 ∧
    (watch_esc [WatchInput.key 'a', WatchInput.key escChar, WatchInput.stop]).1 = 1 :=
  ⟨(c6_watcher [WatchInput.key 'a', WatchInput.stop, WatchInput.key escChar]).2.1 (by decide),
   (c6_watcher [WatchInput.key 'a', WatchInput.key escChar, WatchInput.stop]).2.2.1 escChar
     (by decide)⟩

/-- With the teardown stop byte appended to whatever keys were typed, the
watcher always returns, and every completed `read_key_or_stop` call has
restored the terminal mode it found. -/
theorem watch_loop_stop_terminates (keys : List Char) : ∀ (m : Nat),
    (watch_loop m (keys.map WatchInput.key ++ [WatchInput.stop])).finished = true ∧
    (watch_loop m (keys.map WatchInput.key ++ [WatchInput.stop])).termMode = m := by
  induction keys with
  | nil =>
    intro m
    constructor <;> rfl
  | cons k ks ih =>
    intro m
    by_cases hk : k = escChar
    · constructor <;>
        simp [watch_loop, read_key_or_stop, withFinally, select_step, hk]
    · have hrec := ih m
      constructor <;>
        simp [watch_loop, read_key_or_stop, withFinally, select_step, hk, hrec.1, hrec.2]

/-- C9: on every exit path of the armed scope — normal completion,
cancellation, or fault — the teardown signals stop, awaits the watcher (which
does terminate, woken by the stop byte), closes the pipe, restores the
terminal mode to its pre-armed value, and re-raises the body outcome; the
trace shows the stop byte written before the await, and the await before the
scope ends. -/
theorem c9_scope_teardown (m0 : Nat) (keys : List Char) (body : BodyOutcome) :
    (esc_interruptable_scope m0 keys body).watcherDone = true ∧
    (esc_interruptable_scope m0 keys body).termMode = m0 ∧
    (esc_interruptable_scope m0 keys body).pipeOpen = false ∧
    (esc_interruptable_scope m0 keys body).outcome = body ∧
    (esc_interruptable_scope m0 keys body).trace =
      [ScopeAction.openPipe, ScopeAction.startWatcher, ScopeAction.runBody,
       ScopeAction.writeStopByte, ScopeAction.cancelTask,
       ScopeAction.awaitWatcherDone, ScopeAction.closePipe] := by
  obtain ⟨hf, hm⟩ := watch_loop_stop_terminates keys m0
  exact ⟨hf, hm, rfl, rfl, rfl⟩

/-- A generator that has raised processes no further messages. -/
theorem relay_loop_err (client : Client) (lsid : Option String) (msgs : List Message)
    (st : RelayState) (h : st.err.isSome = true) :
    relay_loop client lsid msgs st = st := by
  cases msgs with
  | nil => rfl
  | cons m rest => simp [relay_loop, h]

/-- One live step of the relay on an init event: bind the id, assert when a
requested id is present, else publish and continue. -/
theorem relay_loop_cons_system (client : Client) (lsid : Option String) (sid : String)
    (rest : List Message) (st : RelayState) (herr : st.err = none) :
    relay_loop client lsid (Message.system sid :: rest) st =
      if truthy lsid && sid != lsid.getD "" then
        { st with sessionVar := some sid,
                  err := some (RelayError.assertMismatch (lsid.getD "") sid) }
      else relay_loop client lsid rest
        (relay_publish client (Message.system sid) (some sid) st) := by
  obtain ⟨reg, w, y, sv, e⟩ := st
  cases e with
  | none => rfl
  | some x => simp at herr

/-- One live step of the relay on a non-init event: publish under the current
session variable and continue. -/
theorem relay_loop_cons_nonsystem (client : Client) (lsid : Option String) (m : Message)
    (rest : List Message) (st : RelayState) (herr : st.err = none)
    (hm : ∀ sid, m ≠ Message.system sid) :
    relay_loop client lsid (m :: rest) st =
      relay_loop client lsid rest (relay_publish client m st.sessionVar st) := by
  obtain ⟨reg, w, y, sv, e⟩ := st
  cases e with
  | some x => simp at herr
  | none =>
    cases m with
    | system sid => exact absurd rfl (hm sid)
    | assistant => rfl
    | result => rfl
    | other => rfl

/-- Relay processing splits over list append. -/
theorem relay_loop_append (client : Client) (lsid : Option String) (xs ys : List Message) :
    ∀ (st : RelayState),
    relay_loop client lsid (xs ++ ys) st =
      relay_loop client lsid ys (relay_loop client lsid xs st) := by
  induction xs with
  | nil => intro st; rfl
  | cons m xs ih =>
    intro st
    rw [List.cons_append]
    by_cases h : st.err.isSome = true
    · have habs : ∀ ms, relay_loop client lsid ms st = st := fun ms =>
        relay_loop_err _ _ _ _ h
      simp only [habs]
    · have herr : st.err = none := Option.not_isSome_iff_eq_none.mp h
      cases m with
      | system sid =>
        rw [relay_loop_cons_system _ _ _ _ _ herr, relay_loop_cons_system _ _ _ _ _ herr]
        by_cases hc : (truthy lsid && sid != lsid.getD "") = true
        · rw [if_pos hc, if_pos hc]
          exact (relay_loop_err client lsid ys
            { st with sessionVar := some sid,
                      err := some (RelayError.assertMismatch (lsid.getD "") sid) } rfl).symm
        · rw [if_neg hc, if_neg hc]
          exact ih _
      | assistant =>
        rw [relay_loop_cons_nonsystem _ _ _ _ _ herr (fun sid => by simp),
          relay_loop_cons_nonsystem _ _ _ _ _ herr (fun sid => by simp)]
        exact ih _
      | result =>
        rw [relay_loop_cons_nonsystem _ _ _ _ _ herr (fun sid => by simp),
          relay_loop_cons_nonsystem _ _ _ _ _ herr (fun sid => by simp)]
        exact ih _
      | other =>
        rw [relay_loop_cons_nonsystem _ _ _ _ _ herr (fun sid => by simp),
          relay_loop_cons_nonsystem _ _ _ _ _ herr (fun sid => by simp)]
        exact ih _

/-- Once the session variable is bound to `s`, every further init event also
reports `s`, and the requested id is absent or equal to `s`, the relay
publishes the mapping `s ↦ client` once per message and yields every message,
never raising. -/
theorem relay_loop_all_same (c : Client) (s : String) (lsid : Option String)
    (hls : lsid = none ∨ lsid = some s) :
    ∀ (msgs : List Message) (st : RelayState),
    (∀ sid, Message.system sid ∈ msgs → sid = s) →
    st.err = none → st.sessionVar = some s →
    ((relay_loop c lsid msgs st).err = none ∧
     (relay_loop c lsid msgs st).writes = st.writes ++ msgs.map (fun _ => (s, c)) ∧
     (relay_loop c lsid msgs st).yielded = st.yielded ++ msgs) := by
  intro msgs
  induction msgs with
  | nil =>
    intro st _ herr _
    refine ⟨herr, ?_, ?_⟩ <;> simp [relay_loop]
  | cons m rest ih =>
    intro st hall herr hsv
    have hall' : ∀ sid, Message.system sid ∈ rest → sid = s := fun sid hm =>
      hall sid (List.mem_cons_of_mem _ hm)
    cases m with
    | system sid =>
      have hsid : sid = s := hall sid (List.mem_cons_self _ _)
      rw [hsid, relay_loop_cons_system _ _ _ _ _ herr,
        if_neg (by rcases hls with h | h <;> subst h <;> simp [truthy])]
      obtain ⟨ih1, ih2, ih3⟩ := ih (relay_publish c (Message.system s) (some s) st)
        hall' (by simp [relay_publish, herr]) (by simp [relay_publish])
      refine ⟨ih1, ?_, ?_⟩
      · rw [ih2]
        simp [relay_publish]
      · rw [ih3]
        simp [relay_publish]
    | assistant =>
      rw [relay_loop_cons_nonsystem _ _ _ _ _ herr (fun sid => by simp), hsv]
      obtain ⟨ih1, ih2, ih3⟩ := ih (relay_publish c Message.assistant (some s) st)
        hall' (by simp [relay_publish, herr]) (by simp [relay_publish])
      refine ⟨ih1, ?_, ?_⟩
      · rw [ih2]
        simp [relay_publish]
      · rw [ih3]
        simp [relay_publish]
    | result =>
      rw [relay_loop_cons_nonsystem _ _ _ _ _ herr (fun sid => by simp), hsv]
      obtain ⟨ih1, ih2, ih3⟩ := ih (relay_publish c Message.result (some s) st)
        hall' (by simp [relay_publish, herr]) (by simp [relay_publish])
      refine ⟨ih1, ?_, ?_⟩
      · rw [ih2]
        simp [relay_publish]
      · rw [ih3]
        simp [relay_publish]
    | other =>
      rw [relay_loop_cons_nonsystem _ _ _ _ _ herr (fun sid => by simp), hsv]
      obtain ⟨ih1, ih2, ih3⟩ := ih (relay_publish c Message.other (some s) st)
        hall' (by simp [relay_publish, herr]) (by simp [relay_publish])
      refine ⟨ih1, ?_, ?_⟩
      · rw [ih2]
        simp [relay_publish]
      · rw [ih3]
        simp [relay_publish]

/-- C7: for a request carrying a (nonempty) session id, an id unknown to the
registry makes the handler create and use a fresh connection, and a known id
makes it reuse the registered connection without creating one. -/
theorem c7_session_lookup (registry : String → Option Client) (l : String) (fresh : Client)
    (stream : List Message) (hl : l ≠ "") :
    (registry l = none →
      (generate_response registry (some l) fresh stream).2 = (fresh, true)) ∧
    (∀ c, registry l = some c →
      (generate_response registry (some l) fresh stream).2 = (c, false)) := by
  constructor
  · intro h
    simp [generate_response, acquire_client, truthy, hl, h]
  · intro c h
    simp [generate_response, acquire_client, truthy, hl, h]

/-- Witness for C7: a registry knowing only s1 ↦ 7 reuses 7 for s1 and
creates the fresh handle 9 for the unknown s2. -/
theorem c7_session_lookup_witness :
    (generate_response (fun k => if k = "s1" then some 7 else none) (some "s1") 9 []).2 =
      (7, false) ∧
    (generate_response (fun k => if k = "s1" then some 7 else none) (some "s2") 9 []).2 =
      (9, true) :=
  ⟨(c7_session_lookup (fun k => if k = "s1" then some 7 else none) "s1" 9 []
      (by decide)).2 7 (by decide),
   (c7_session_lookup (fun k => if k = "s1" then some 7 else none) "s2" 9 []
      (by decide)).1 (by decide)⟩

/-- C8: on a resumed request (registry maps the requested id `l` to `c`) whose
stream, after a cleanly processed prefix, reports a different id `sid`, the
assert raises `AssertionError` (the SessionIdentityMismatch surface) before
the registry write for that event: nothing further is written or yielded and
the registry is exactly what the prefix left — the mapping is never silently
overwritten with the new id. -/
theorem c8_identity_mismatch (registry : String → Option Client) (l sid : String)
    (c fresh : Client) (pre rest : List Message)
    (hl : l ≠ "") (hresumed : registry l = some c) (hne : sid ≠ l)
    (hclean : (relay_loop c (some l) pre (init_relay_state registry)).err = none) :
    (generate_response registry (some l) fresh (pre ++ Message.system sid :: rest)).1.err =
      some (RelayError.assertMismatch l sid) ∧
    (generate_response registry (some l) fresh (pre ++ Message.system sid :: rest)).1.writes =
      (relay_loop c (some l) pre (init_relay_state registry)).writes ∧
    (generate_response registry (some l) fresh (pre ++ Message.system sid :: rest)).1.yielded =
      (relay_loop c (some l) pre (init_relay_state registry)).yielded ∧
    (∀ k, (generate_response registry (some l) fresh
        (pre ++ Message.system sid :: rest)).1.registry k =
      (relay_loop c (some l) pre (init_relay_state registry)).registry k) := by
  have hacq : acquire_client registry (some l) fresh = (c, false) := by
    simp [acquire_client, truthy, hl, hresumed]
  have hgen : (generate_response registry (some l) fresh
      (pre ++ Message.system sid :: rest)).1 =
      relay_loop c (some l) (pre ++ Message.system sid :: rest) (init_relay_state registry) := by
    simp [generate_response, hacq]
  have hcond : (truthy (some l) && sid != (some l).getD "") = true := by
    simp [truthy, hl, hne]
  rw [hgen, relay_loop_append, relay_loop_cons_system _ _ _ _ _ hclean, if_pos hcond]
  exact ⟨rfl, rfl, rfl, fun k => rfl⟩

/-- Witness for C8: registry s1 ↦ 3, prefix [init s1], mismatching init s2:
the generator raises the mismatch and neither writes nor yields the event. -/
theorem c8_identity_mismatch_witness :
    (generate_response (fun k => if k = "s1" then some 3 else none) (some "s1") 9
        [Message.system "s1", Message.system "s2"]).1.err =
      some (RelayError.assertMismatch "s1" "s2") :=
  (c8_identity_mismatch (fun k => if k = "s1" then some 3 else none) "s1" "s2" 3 9
    [Message.system "s1"] [] (by decide) (by decide) (by decide) (by decide)).1

/-- C2 is a real defect in the code (the spec itself flags the bare shared
mapping as a known race): two requests for the same session id `l`, unknown to
the registry, that both pass the api.py:57 lookup before either stream
publishes, each construct their own `ClaudeSDKClient` — two distinct live
connections for the one (eventual) session id, where the claim requires a
single shared handle. -/
theorem c2_registry_race (registry : String → Option Client) (l : String)
    (fresh1 fresh2 : Client) (stream1 stream2 : List Message)
    (hl : l ≠ "") (hunknown : registry l = none) (hne : fresh1 ≠ fresh2) :
    (race_two_requests registry l fresh1 fresh2 stream1 stream2).1 = (fresh1, true) ∧
    (race_two_requests registry l fresh1 fresh2 stream1 stream2).2.1 = (fresh2, true) ∧
    (race_two_requests registry l fresh1 fresh2 stream1 stream2).1.1 ≠
      (race_two_requests registry l fresh1 fresh2 stream1 stream2).2.1.1 := by
  have h1 : acquire_client registry (some l) fresh1 = (fresh1, true) := by
    simp [acquire_client, truthy, hl, hunknown]
  have h2 : acquire_client registry (some l) fresh2 = (fresh2, true) := by
    simp [acquire_client, truthy, hl, hunknown]
  refine ⟨?_, ?_, ?_⟩ <;> simp [race_two_requests, h1, h2, hne]

/-- Witness for C2: an empty registry, id X, and handles 1 and 2. -/
theorem c2_registry_race_witness :
    (race_two_requests (fun _ => none) "X" 1 2 [] []).1 = (1, true) ∧
    (race_two_requests (fun _ => none) "X" 1 2 [] []).2.1 = (2, true) ∧
    (race_two_requests (fun _ => none) "X" 1 2 [] []).1.1 ≠
      (race_two_requests (fun _ => none) "X" 1 2 [] []).2.1.1 :=
  c2_registry_race (fun _ => none) "X" 1 2 [] [] (by decide) rfl (by decide)

/-- C10: the registry write runs once per received event, not only on init
events: a stream whose first event is no init dies with `UnboundLocalError`
before yielding or writing anything; a stream that starts with init reporting
the session id s (all init events of one response stream report the same id)
is fully relayed, with one write `s ↦ client` per event and every event
yielded in order. -/
theorem c10_write_every_event (registry : String → Option Client) (fresh : Client) :
    (∀ (lsid : Option String) (m : Message) (rest : List Message),
      (∀ sid, m ≠ Message.system sid) →
      ((generate_response registry lsid fresh (m :: rest)).1.err =
          some RelayError.unboundSessionId ∧
       (generate_response registry lsid fresh (m :: rest)).1.yielded = [] ∧
       (generate_response registry lsid fresh (m :: rest)).1.writes = [])) ∧
    (∀ (lsid : Option String) (s : String) (rest : List Message),
      (lsid = none ∨ lsid = some s) →
      (∀ sid, Message.system sid ∈ Message.system s :: rest → sid = s) →
      ((generate_response registry lsid fresh (Message.system s :: rest)).1.err = none ∧
       (generate_response registry lsid fresh (Message.system s :: rest)).1.writes =
         (Message.system s :: rest).map
           (fun _ => (s, (acquire_client registry lsid fresh).1)) ∧
       (generate_response registry lsid fresh (Message.system s :: rest)).1.yielded =
         Message.system s :: rest)) := by
  constructor
  · intro lsid m rest hm
    have hgen : (generate_response registry lsid fresh (m :: rest)).1 =
        relay_loop (acquire_client registry lsid fresh).1 lsid (m :: rest)
          (init_relay_state registry) := rfl
    have hinit : (init_relay_state registry).err = none := rfl
    rw [hgen, relay_loop_cons_nonsystem _ _ _ _ _ hinit hm]
    have hpub : relay_publish (acquire_client registry lsid fresh).1 m
        (init_relay_state registry).sessionVar (init_relay_state registry) =
        (⟨registry, [], [], none, some RelayError.unboundSessionId⟩ : RelayState) := rfl
    rw [hpub, relay_loop_err (acquire_client registry lsid fresh).1 lsid rest
      (⟨registry, [], [], none, some RelayError.unboundSessionId⟩ : RelayState) rfl]
    exact ⟨rfl, rfl, rfl⟩
  · intro lsid s rest hls hall
    have hgen : (generate_response registry lsid fresh (Message.system s :: rest)).1 =
        relay_loop (acquire_client registry lsid fresh).1 lsid (Message.system s :: rest)
          (init_relay_state registry) := rfl
    have hinit : (init_relay_state registry).err = none := rfl
    rw [hgen, relay_loop_cons_system _ _ _ _ _ hinit,
      if_neg (by rcases hls with h | h <;> subst h <;> simp [truthy])]
    obtain ⟨h1, h2, h3⟩ := relay_loop_all_same (acquire_client registry lsid fresh).1 s
      lsid hls rest
      (relay_publish (acquire_client registry lsid fresh).1 (Message.system s) (some s)
        (init_relay_state registry))
      (fun sid hm => hall sid (List.mem_cons_of_mem _ hm))
      (by simp [relay_publish, init_relay_state])
      (by simp [relay_publish])
    refine ⟨h1, ?_, ?_⟩
    · rw [h2]
      simp [relay_publish, init_relay_state]
    · rw [h3]
      simp [relay_publish, init_relay_state]

/-- Witness for C10: a stream starting with a non-init event dies unbound with
nothing yielded; a stream [init X, assistant, result] gets three writes of
X ↦ 5, one per event. -/
theorem c10_write_every_event_witness :
    (generate_response (fun _ => none) none 5 [Message.assistant]).1.err =
      some RelayError.unboundSessionId ∧
    (generate_response (fun _ => none) none 5
        [Message.system "X", Message.assistant, Message.result]).1.writes =
      [("X", 5), ("X", 5), ("X", 5)] := by
  have hA := (c10_write_every_event (fun _ => none) 5).1 none Message.assistant []
    (fun sid => by simp)
  have hB := (c10_write_every_event (fun _ => none) 5).2 none "X"
    [Message.assistant, Message.result] (Or.inl rfl) (fun sid h => by simpa using h)
  exact ⟨hA.1, by simpa using hB.2.1⟩

end Samples
